import Mathlib

/-!
Shallow embedding of the core of `src/Elvins_system.py` (the ELLVINS library
system): the sqlite-backed `DB` class holding schools, students, books, loans
and an undo log, together with the loan-ledger operations (`borrow_book`,
`return_book`), the delete/undo operations and the settings update.

Modelling conventions:
* sqlite tables become Lean lists of row structures; `INTEGER PRIMARY KEY`
  rowid allocation becomes an explicit per-table fresh-id counter on the state.
* `datetime.datetime.utcnow()` values are passed in explicitly as a `DateTime`
  argument (`now`); a `DateTime` is a calendar day index plus a time-of-day,
  so that Python's `.date()` (discarding time-of-day) and
  `timedelta(days=n)` (shifting the day, keeping the time-of-day) are exact.
  `isoformat`/`fromisoformat` round-trips are identities and are elided.
* `sqlite3.IntegrityError` on a UNIQUE constraint is caught by the Python
  code and turned into `False`; correspondingly the add operations test the
  uniqueness predicate and return a `Bool`.
* the strings returned by `return_book` interpolate the fine and the number
  of late days; they are modelled by the structured `ReturnResult` whose
  constructors carry exactly the interpolated values.
-/

/-- A UTC instant: `day` is the calendar date (days since an arbitrary epoch,
as an integer so differences are exact), `tod` the time within that day
(microseconds; its unit is irrelevant, only that adding whole days keeps it). -/
structure DateTime where
  day : Int
  tod : Nat
deriving Repr, DecidableEq

/-- Python `dt + datetime.timedelta(days := n)`: shifts the date, keeps the
time-of-day. -/
def DateTime.addDays (dt : DateTime) (n : Int) : DateTime :=
  ⟨dt.day + n, dt.tod⟩

/-- Python `dt.date()`: the calendar date with time-of-day discarded.
Subtraction of two dates yields the exact whole-day difference. -/
def DateTime.date (dt : DateTime) : Int :=
  dt.day

/-- sqlite `ORDER BY` comparison of stored isoformat strings: lexicographic
order of ISO timestamps is chronological order, i.e. by day then time. -/
def DateTime.leb (a b : DateTime) : Bool :=
  if a.day < b.day then true
  else if b.day < a.day then false
  else decide (a.tod ≤ b.tod)

/-- `DEFAULT_FINE_PER_DAY = 10` -/
def DEFAULT_FINE_PER_DAY : Int := 10

/-- `DEFAULT_LOAN_DAYS = 14` -/
def DEFAULT_LOAN_DAYS : Int := 14

/-- A row of the `schools` table. -/
structure SchoolRow where
  id : Nat
  name : String
  password : String
  created_at : DateTime
  fine_per_day : Int
  default_loan_days : Int
deriving Repr, DecidableEq

/-- A row of the `students` table (`class` is spelt `klass` as in the Python
parameter name, `class` being reserved). -/
structure StudentRow where
  id : Nat
  school_id : Nat
  admission_no : String
  name : String
  klass : String
deriving Repr, DecidableEq

/-- A row of the `books` table. -/
structure BookRow where
  id : Nat
  school_id : Nat
  title : String
  author : String
  barcode : String
  non_circulating : Bool
  condition : String
deriving Repr, DecidableEq

/-- A row of the `loans` table. `returned_at` is `NULL` (`none`) while the
loan is active. `fine_paid` defaults to 0 and is never consumed. -/
structure LoanRow where
  id : Nat
  school_id : Nat
  book_id : Nat
  student_id : Nat
  borrowed_at : DateTime
  due_date : DateTime
  returned_at : Option DateTime
  fine_paid : Bool
deriving Repr, DecidableEq

/-- The `table_name`/`record_data` pair of an undo-log row: a tagged full
snapshot of the deleted row (`json.dumps(dict(row))` of a student or book). -/
inductive UndoData where
  | students (row : StudentRow)
  | books (row : BookRow)
deriving Repr, DecidableEq

/-- A row of the `undo_log` table. -/
structure UndoRow where
  id : Nat
  school_id : Nat
  data : UndoData
  deleted_at : DateTime
deriving Repr, DecidableEq

/-- The persistent state of the sqlite database (the `users` table is not
touched by any modelled operation and is omitted). The `next_*` fields model
sqlite's per-table rowid allocation for `INTEGER PRIMARY KEY` columns. -/
structure DBState where
  schools : List SchoolRow
  students : List StudentRow
  books : List BookRow
  loans : List LoanRow
  undo_log : List UndoRow
  next_school_id : Nat
  next_student_id : Nat
  next_book_id : Nat
  next_loan_id : Nat
  next_undo_id : Nat
deriving Repr, DecidableEq

/-- The freshly initialised database (`init_schema` on an empty file):
all tables empty, rowids starting at 1. -/
def initState : DBState :=
  ⟨[], [], [], [], [], 1, 1, 1, 1, 1⟩

/-- `DB.register_school`: `INSERT INTO schools ...`; the UNIQUE constraint on
`name` surfaces as a caught `IntegrityError`, i.e. a `false` return. -/
def register_school (st : DBState) (name password : String)
    (fine_per_day default_loan_days : Int) (now : DateTime) : Bool × DBState :=
  if st.schools.any (fun s => s.name == name) then
    (false, st)
  else
    (true, { st with
      schools := st.schools ++
        [⟨st.next_school_id, name, password, now, fine_per_day, default_loan_days⟩],
      next_school_id := st.next_school_id + 1 })

/-- `DB.add_student`: `INSERT INTO students ...`; the
`UNIQUE(school_id, admission_no)` constraint surfaces as a caught
`IntegrityError`, i.e. a `false` return. -/
def add_student (st : DBState) (school_id : Nat) (admission_no name klass : String) :
    Bool × DBState :=
  if st.students.any (fun s => s.school_id == school_id && s.admission_no == admission_no) then
    (false, st)
  else
    (true, { st with
      students := st.students ++
        [⟨st.next_student_id, school_id, admission_no, name, klass⟩],
      next_student_id := st.next_student_id + 1 })

/-- `DB.add_book`: `INSERT INTO books ...`; the `UNIQUE(school_id, barcode)`
constraint surfaces as a caught `IntegrityError`, i.e. a `false` return. -/
def add_book (st : DBState) (school_id : Nat) (title author barcode : String)
    (non_circ : Bool) (condition : String) : Bool × DBState :=
  if st.books.any (fun b => b.school_id == school_id && b.barcode == barcode) then
    (false, st)
  else
    (true, { st with
      books := st.books ++
        [⟨st.next_book_id, school_id, title, author, barcode, non_circ, condition⟩],
      next_book_id := st.next_book_id + 1 })

/-- The row predicate of `SELECT/DELETE ... WHERE school_id=? AND admission_no=?`. -/
def studentKeyMatch (school_id : Nat) (admission_no : String) (s : StudentRow) : Bool :=
  s.school_id == school_id && s.admission_no == admission_no

/-- The row predicate of `SELECT/DELETE ... WHERE school_id=? AND barcode=?`. -/
def bookKeyMatch (school_id : Nat) (barcode : String) (b : BookRow) : Bool :=
  b.school_id == school_id && b.barcode == barcode

/-- `DB.delete_student`: if a matching row exists, snapshot it (the first
fetched row) into `undo_log`, then delete every matching row. -/
def delete_student (st : DBState) (school_id : Nat) (admission_no : String)
    (now : DateTime) : DBState :=
  let st1 :=
    match st.students.find? (studentKeyMatch school_id admission_no) with
    | some student =>
        { st with
          undo_log := st.undo_log ++ [(⟨st.next_undo_id, school_id, .students student, now⟩ : UndoRow)],
          next_undo_id := st.next_undo_id + 1 }
    | none => st
  { st1 with students := st1.students.filter (fun s => !studentKeyMatch school_id admission_no s) }

/-- `DB.delete_book`: if a matching row exists, snapshot it into `undo_log`,
then delete every matching row. -/
def delete_book (st : DBState) (school_id : Nat) (barcode : String)
    (now : DateTime) : DBState :=
  let st1 :=
    match st.books.find? (bookKeyMatch school_id barcode) with
    | some book =>
        { st with
          undo_log := st.undo_log ++ [(⟨st.next_undo_id, school_id, .books book, now⟩ : UndoRow)],
          next_undo_id := st.next_undo_id + 1 }
    | none => st
  { st1 with books := st1.books.filter (fun b => !bookKeyMatch school_id barcode b) }

/-- `DB.has_active_loans_student`: `SELECT COUNT(*) FROM loans JOIN students
ON students.id = loans.student_id WHERE loans.school_id=? AND
students.admission_no=? AND loans.returned_at IS NULL`, compared with 0. -/
def has_active_loans_student (st : DBState) (school_id : Nat) (admission_no : String) : Bool :=
  st.loans.any (fun l =>
    l.school_id == school_id && l.returned_at.isNone &&
      st.students.any (fun s => s.id == l.student_id && s.admission_no == admission_no))

/-- `DB.has_active_loans_book`: `SELECT COUNT(*) FROM loans JOIN books
ON books.id = loans.book_id WHERE loans.school_id=? AND books.barcode=? AND
loans.returned_at IS NULL`, compared with 0. -/
def has_active_loans_book (st : DBState) (school_id : Nat) (barcode : String) : Bool :=
  st.loans.any (fun l =>
    l.school_id == school_id && l.returned_at.isNone &&
      st.books.any (fun b => b.id == l.book_id && b.barcode == barcode))

/-- `DB.find_student`: `SELECT * FROM students WHERE school_id=? AND admission_no=?`. -/
def find_student (st : DBState) (school_id : Nat) (admission_no : String) : Option StudentRow :=
  st.students.find? (studentKeyMatch school_id admission_no)

/-- `DB.find_book`: `SELECT * FROM books WHERE school_id=? AND barcode=?`. -/
def find_book (st : DBState) (school_id : Nat) (barcode : String) : Option BookRow :=
  st.books.find? (bookKeyMatch school_id barcode)

/-- Insertion step of `ORDER BY deleted_at DESC`. -/
def insertDescByDeletedAt (u : UndoRow) : List UndoRow → List UndoRow
  | [] => [u]
  | v :: vs =>
      if DateTime.leb v.deleted_at u.deleted_at then u :: v :: vs
      else v :: insertDescByDeletedAt u vs

/-- `ORDER BY deleted_at DESC` as an insertion sort. -/
def sortDescByDeletedAt : List UndoRow → List UndoRow
  | [] => []
  | u :: us => insertDescByDeletedAt u (sortDescByDeletedAt us)

/-- `DB.get_recent_deletions`: `SELECT * FROM undo_log WHERE school_id=?
ORDER BY deleted_at DESC LIMIT ?` (the Python default for the limit is 10). -/
def get_recent_deletions (st : DBState) (school_id : Nat) (limit : Nat) : List UndoRow :=
  (sortDescByDeletedAt (st.undo_log.filter (fun u => u.school_id == school_id))).take limit

/-- `DB.undo_deletion`: look the entry up by id and school; if absent, fail.
Otherwise replay the snapshot through `add_student`/`add_book` — whose
`Bool` result the Python code ignores, since they catch `IntegrityError`
themselves and never raise — then delete the undo entry and report success.
The `except` branch of the Python code is unreachable for these adds. -/
def undo_deletion (st : DBState) (school_id undo_id : Nat) : (Bool × String) × DBState :=
  match st.undo_log.find? (fun r => r.id == undo_id && r.school_id == school_id) with
  | none => ((false, "Undo record not found"), st)
  | some record =>
      let st1 :=
        match record.data with
        | .students d => (add_student st school_id d.admission_no d.name d.klass).2
        | .books d => (add_book st school_id d.title d.author d.barcode
            d.non_circulating d.condition).2
      let st2 := { st1 with undo_log := st1.undo_log.filter (fun r => r.id != undo_id) }
      ((true, "Record restored"), st2)

/-- The row predicate of `SELECT * FROM loans WHERE school_id=? AND book_id=?
AND returned_at IS NULL`. -/
def isActiveFor (school_id book_id : Nat) (l : LoanRow) : Bool :=
  l.school_id == school_id && l.book_id == book_id && l.returned_at.isNone

/-- The `fetchone()` of the active-loan query shared by `borrow_book` and
`return_book`. -/
def find_active_loan (st : DBState) (school_id book_id : Nat) : Option LoanRow :=
  st.loans.find? (isActiveFor school_id book_id)

/-- `DB.borrow_book`: fail if an active loan exists for this book in this
school; otherwise resolve the loan period (explicit argument, else the
school's `default_loan_days`, else `DEFAULT_LOAN_DAYS` if the school row is
missing), compute the due date and insert the loan with `returned_at = NULL`.
No check that the book or the student exists. -/
def borrow_book (st : DBState) (school_id book_id student_id : Nat)
    (days : Option Int) (now : DateTime) : (Bool × String) × DBState :=
  match find_active_loan st school_id book_id with
  | some _ => ((false, "Book already borrowed"), st)
  | none =>
      let borrowed_at := now
      let d : Int :=
        match days with
        | some d => d
        | none =>
            match st.schools.find? (fun s => s.id == school_id) with
            | some r => r.default_loan_days
            | none => DEFAULT_LOAN_DAYS
      let due := borrowed_at.addDays d
      ((true, "Borrow recorded"),
        { st with
          loans := st.loans ++
            [⟨st.next_loan_id, school_id, book_id, student_id, borrowed_at, due, none, false⟩],
          next_loan_id := st.next_loan_id + 1 })

/-- The result of `return_book`, carrying exactly the values the Python code
interpolates into its message strings: `(False, "No active loan")`,
`(True, "Returned. Fine due: <fine> (days late: <days_late>)")`, or
`(True, "Returned. No fine.")`. -/
inductive ReturnResult where
  | noActiveLoan
  | returnedFine (fine : Int) (days_late : Int)
  | returnedNoFine
deriving Repr, DecidableEq

/-- The success flag of the `(ok, msg)` pair returned by `return_book`. -/
def ReturnResult.success : ReturnResult → Bool
  | .noActiveLoan => false
  | .returnedFine _ _ => true
  | .returnedNoFine => true

/-- The fine amount reported to the caller: the interpolated fine on a late
return, 0 when the message reports no fine (or the call failed). -/
def ReturnResult.reportedFine : ReturnResult → Int
  | .noActiveLoan => 0
  | .returnedFine fine _ => fine
  | .returnedNoFine => 0

/-- `DB.return_book`: fail if no active loan exists; otherwise stamp the
fetched loan's `returned_at = now` (by id), recompute
`days_late = (returned_at.date() - due_date.date()).days` and, if positive,
report `days_late * fine_per_day` with the school's rate as currently stored
(`DEFAULT_FINE_PER_DAY` if the school row is missing). -/
def return_book (st : DBState) (school_id book_id : Nat) (now : DateTime) :
    ReturnResult × DBState :=
  match find_active_loan st school_id book_id with
  | none => (.noActiveLoan, st)
  | some r =>
      let st1 := { st with
        loans := st.loans.map (fun l =>
          if l.id == r.id then { l with returned_at := some now } else l) }
      let days_late : Int := now.date - r.due_date.date
      if 0 < days_late then
        let fine_per_day :=
          match st.schools.find? (fun s => s.id == school_id) with
          | some school => school.fine_per_day
          | none => DEFAULT_FINE_PER_DAY
        (.returnedFine (days_late * fine_per_day) days_late, st1)
      else
        (.returnedNoFine, st1)

/-- `DB.update_school_settings`: `UPDATE schools SET fine_per_day=?,
default_loan_days=? WHERE id=?`. -/
def update_school_settings (st : DBState) (school_id : Nat)
    (fine_per_day default_loan_days : Int) : DBState :=
  { st with
    schools := st.schools.map (fun s =>
      if s.id == school_id then
        { s with fine_per_day := fine_per_day, default_loan_days := default_loan_days }
      else s) }

/-- The deletion flow of `MainWindow.delete_student` around the store (the
role check and the confirmation dialog, pure UI, are elided): refuse when
`has_active_loans_student`, otherwise call `DB.delete_student`. -/
def delete_student_checked (st : DBState) (school_id : Nat) (admission_no : String)
    (now : DateTime) : Bool × DBState :=
  if has_active_loans_student st school_id admission_no then
    (false, st)
  else
    (true, delete_student st school_id admission_no now)

/-- The deletion flow of `MainWindow.delete_book` around the store (role
check and confirmation dialog elided): refuse when `has_active_loans_book`,
otherwise call `DB.delete_book`. -/
def delete_book_checked (st : DBState) (school_id : Nat) (barcode : String)
    (now : DateTime) : Bool × DBState :=
  if has_active_loans_book st school_id barcode then
    (false, st)
  else
    (true, delete_book st school_id barcode now)

/-- One call into the modelled `DB` interface, with every `utcnow()` the call
reads supplied as an explicit `DateTime`. -/
inductive Op where
  | registerSchool (name password : String) (fine_per_day default_loan_days : Int) (now : DateTime)
  | addStudent (school_id : Nat) (admission_no name klass : String)
  | addBook (school_id : Nat) (title author barcode : String) (non_circ : Bool) (condition : String)
  | deleteStudent (school_id : Nat) (admission_no : String) (now : DateTime)
  | deleteBook (school_id : Nat) (barcode : String) (now : DateTime)
  | undoDeletion (school_id undo_id : Nat)
  | borrowBook (school_id book_id student_id : Nat) (days : Option Int) (now : DateTime)
  | returnBook (school_id book_id : Nat) (now : DateTime)
  | updateSchoolSettings (school_id : Nat) (fine_per_day default_loan_days : Int)

/-- The state transition of one `DB` call (results discarded). -/
def applyOp (st : DBState) : Op → DBState
  | .registerSchool name password f d now => (register_school st name password f d now).2
  | .addStudent school_id admission_no name klass => (add_student st school_id admission_no name klass).2
  | .addBook school_id title author barcode non_circ condition =>
      (add_book st school_id title author barcode non_circ condition).2
  | .deleteStudent school_id admission_no now => delete_student st school_id admission_no now
  | .deleteBook school_id barcode now => delete_book st school_id barcode now
  | .undoDeletion school_id undo_id => (undo_deletion st school_id undo_id).2
  | .borrowBook school_id book_id student_id days now =>
      (borrow_book st school_id book_id student_id days now).2
  | .returnBook school_id book_id now => (return_book st school_id book_id now).2
  | .updateSchoolSettings school_id f d => update_school_settings st school_id f d

/-- A database state reachable from the fresh database through `DB` calls. -/
def Reachable (st : DBState) : Prop :=
  ∃ ops : List Op, st = ops.foldl applyOp initState

/-- The active loans of a (school, book) pair. -/
def activeLoans (st : DBState) (school_id book_id : Nat) : List LoanRow :=
  st.loans.filter (isActiveFor school_id book_id)

/-- The loan-table invariant maintained by every `DB` call: loan ids are
pairwise distinct and below the fresh-id counter, and each (school, book)
pair has at most one active loan. -/
def LoanInv (st : DBState) : Prop :=
  (st.loans.map LoanRow.id).Nodup ∧
  (∀ l ∈ st.loans, l.id < st.next_loan_id) ∧
  (∀ s b, (activeLoans st s b).length ≤ 1)

/-- The per-row update performed by `return_book`'s `UPDATE ... WHERE id=?`. -/
def stampReturned (rid : Nat) (now : DateTime) (l : LoanRow) : LoanRow :=
  if l.id == rid then { l with returned_at := some now } else l

/-- An active loan held by the student row `X` (a loan that references `X`
and lives, like everything in the spec, in `X`'s school). -/
def hasActiveLoanStudentRow (st : DBState) (X : StudentRow) : Prop :=
  ∃ l ∈ st.loans, l.student_id = X.id ∧ l.school_id = X.school_id ∧ l.returned_at = none

/-- An active loan on the book row `B` (a loan that references `B` and lives
in `B`'s school). -/
def hasActiveLoanBookRow (st : DBState) (B : BookRow) : Prop :=
  ∃ l ∈ st.loans, l.book_id = B.id ∧ l.school_id = B.school_id ∧ l.returned_at = none

/-- The spec's running example school: "Oakview", fine 10 per day, 14 loan
days. -/
def oakview : SchoolRow :=
  ⟨1, "Oakview", "pw", ⟨0, 0⟩, 10, 14⟩

/-- The spec's example student "A100"/"Jane". -/
def janeRow : StudentRow :=
  ⟨1, 1, "A100", "Jane", "Form 1"⟩

/-- The spec's example book with barcode "BC001". -/
def bc001 : BookRow :=
  ⟨1, 1, "Waliaula", "Elvis", "BC001", false, "Good"⟩

/-- A concrete state: Oakview registered, Jane and book BC001 added, no
loans yet. -/
def oakviewState : DBState :=
  ⟨[oakview], [janeRow], [bc001], [], [], 2, 2, 2, 1, 1⟩

/-- The loan produced by borrowing book 1 for student 1 at Oakview on day 0:
due 14 days later, same time-of-day. -/
def oakviewLoan : LoanRow :=
  ⟨1, 1, 1, 1, ⟨0, 200⟩, ⟨14, 200⟩, none, false⟩

/-- `oakviewState` right after that borrow. -/
def oakviewLoanState : DBState :=
  { oakviewState with loans := [oakviewLoan], next_loan_id := 2 }

/-- A concrete state for the undo-conflict scenario: Jane ("A100") was
deleted (her snapshot sits in the undo log) and the admission number "A100"
was then reused for a new insert ("Bob"). -/
def reusedAdmissionState : DBState :=
  { oakviewState with
    students := [⟨2, 1, "A100", "Bob", "Form 2"⟩],
    undo_log := [⟨1, 1, .students janeRow, ⟨1, 0⟩⟩],
    next_student_id := 3,
    next_undo_id := 2 }

/-! ### Helper lemmas: which operations leave the loans table untouched -/

theorem register_school_loans (st : DBState) (n p : String) (f d : Int) (now : DateTime) :
    ((register_school st n p f d now).2).loans = st.loans ∧
      ((register_school st n p f d now).2).next_loan_id = st.next_loan_id := by
  unfold register_school
  split <;> exact ⟨rfl, rfl⟩

theorem add_student_loans (st : DBState) (s : Nat) (a n k : String) :
    ((add_student st s a n k).2).loans = st.loans ∧
      ((add_student st s a n k).2).next_loan_id = st.next_loan_id := by
  unfold add_student
  split <;> exact ⟨rfl, rfl⟩

theorem add_book_loans (st : DBState) (s : Nat) (t a b : String) (nc : Bool) (c : String) :
    ((add_book st s t a b nc c).2).loans = st.loans ∧
      ((add_book st s t a b nc c).2).next_loan_id = st.next_loan_id := by
  unfold add_book
  split <;> exact ⟨rfl, rfl⟩

theorem delete_student_loans (st : DBState) (s : Nat) (a : String) (now : DateTime) :
    (delete_student st s a now).loans = st.loans ∧
      (delete_student st s a now).next_loan_id = st.next_loan_id := by
  unfold delete_student
  split <;> exact ⟨rfl, rfl⟩

theorem delete_book_loans (st : DBState) (s : Nat) (b : String) (now : DateTime) :
    (delete_book st s b now).loans = st.loans ∧
      (delete_book st s b now).next_loan_id = st.next_loan_id := by
  unfold delete_book
  split <;> exact ⟨rfl, rfl⟩

theorem undo_deletion_loans (st : DBState) (s u : Nat) :
    ((undo_deletion st s u).2).loans = st.loans ∧
      ((undo_deletion st s u).2).next_loan_id = st.next_loan_id := by
  unfold undo_deletion
  split
  · exact ⟨rfl, rfl⟩
  · rename_i record _
    cases hd : record.data with
    | students d =>
        simp only [hd]
        exact ⟨(add_student_loans st s d.admission_no d.name d.klass).1,
               (add_student_loans st s d.admission_no d.name d.klass).2⟩
    | books d =>
        simp only [hd]
        exact ⟨(add_book_loans st s d.title d.author d.barcode d.non_circulating d.condition).1,
               (add_book_loans st s d.title d.author d.barcode d.non_circulating d.condition).2⟩

theorem update_school_settings_loans (st : DBState) (s : Nat) (f d : Int) :
    (update_school_settings st s f d).loans = st.loans ∧
      (update_school_settings st s f d).next_loan_id = st.next_loan_id :=
  ⟨rfl, rfl⟩

/-! ### The single-active-loan invariant -/

theorem loanInv_of_eq {st st' : DBState} (hl : st'.loans = st.loans)
    (hn : st'.next_loan_id = st.next_loan_id) (h : LoanInv st) : LoanInv st' := by
  obtain ⟨h1, h2, h3⟩ := h
  refine ⟨by rw [hl]; exact h1, by rw [hl, hn]; exact h2, fun s b => ?_⟩
  have : activeLoans st' s b = activeLoans st s b := by
    unfold activeLoans; rw [hl]
  rw [this]; exact h3 s b

theorem eq_of_mem_of_length_le_one {α : Type _} {l : List α} {a b : α}
    (h : l.length ≤ 1) (ha : a ∈ l) (hb : b ∈ l) : a = b := by
  match l with
  | [] => cases ha
  | [x] =>
      rw [List.mem_singleton] at ha hb
      rw [ha, hb]
  | x :: y :: t => simp at h

theorem borrow_book_preserves_loanInv (st : DBState) (s b stu : Nat)
    (days : Option Int) (now : DateTime) (h : LoanInv st) :
    LoanInv ((borrow_book st s b stu days now).2) := by
  obtain ⟨h1, h2, h3⟩ := h
  unfold borrow_book
  cases hf : find_active_loan st s b with
  | some r => exact ⟨h1, h2, h3⟩
  | none =>
      simp only
      constructor
      · -- distinct ids
        rw [List.map_append, List.map_cons, List.map_nil, List.nodup_append]
        refine ⟨h1, List.nodup_singleton _, ?_⟩
        rw [List.disjoint_singleton]
        intro hmem
        rw [List.mem_map] at hmem
        obtain ⟨l, hl, hid⟩ := hmem
        exact absurd hid (Nat.ne_of_lt (h2 l hl))
      constructor
      · -- ids below the counter
        intro l hl
        rw [List.mem_append] at hl
        cases hl with
        | inl hl => exact Nat.lt_succ_of_lt (h2 l hl)
        | inr hl =>
            rw [List.mem_singleton] at hl
            rw [hl]
            exact Nat.lt_succ_self _
      · -- at most one active loan per (school, book)
        intro s' b'
        unfold activeLoans
        simp only [List.filter_append]
        by_cases hsb : s' = s ∧ b' = b
        · obtain ⟨rfl, rfl⟩ := hsb
          have hnil : st.loans.filter (isActiveFor s' b') = [] := by
            rw [List.filter_eq_nil_iff]
            intro l hl
            unfold find_active_loan at hf
            exact List.find?_eq_none.mp hf l hl
          rw [hnil, List.nil_append]
          exact List.length_filter_le _ _
        · simp only [List.filter_cons, List.filter_nil]
          split
          · exfalso
            rename_i hL
            simp only [isActiveFor, Bool.and_eq_true, beq_iff_eq, Option.isNone] at hL
            obtain ⟨⟨hA, hB⟩, _⟩ := hL
            exact hsb ⟨by omega, by omega⟩
          · simp only [List.append_nil]
            exact h3 s' b'

theorem stampReturned_id (rid : Nat) (now : DateTime) (l : LoanRow) :
    (stampReturned rid now l).id = l.id := by
  unfold stampReturned
  split <;> rfl

theorem return_book_snd (st : DBState) (s b : Nat) (now : DateTime) (r : LoanRow)
    (hf : find_active_loan st s b = some r) :
    (return_book st s b now).2 = { st with loans := st.loans.map (stampReturned r.id now) } := by
  unfold return_book stampReturned
  rw [hf]
  simp only
  split <;> rfl

theorem return_book_snd_none (st : DBState) (s b : Nat) (now : DateTime)
    (hf : find_active_loan st s b = none) :
    (return_book st s b now).2 = st := by
  unfold return_book
  rw [hf]

theorem return_book_preserves_loanInv (st : DBState) (s b : Nat) (now : DateTime)
    (h : LoanInv st) : LoanInv ((return_book st s b now).2) := by
  obtain ⟨h1, h2, h3⟩ := h
  cases hf : find_active_loan st s b with
  | none => rw [return_book_snd_none st s b now hf]; exact ⟨h1, h2, h3⟩
  | some r =>
      rw [return_book_snd st s b now r hf]
      have hids : (st.loans.map (stampReturned r.id now)).map LoanRow.id =
          st.loans.map LoanRow.id := by
        rw [List.map_map]
        exact List.map_congr_left (fun l _ => stampReturned_id r.id now l)
      constructor
      · rw [hids]; exact h1
      constructor
      · intro l hl
        rw [List.mem_map] at hl
        obtain ⟨x, hx, rfl⟩ := hl
        rw [stampReturned_id]
        exact h2 x hx
      · intro s' b'
        unfold activeLoans
        simp only
        have h3' : (List.filter (isActiveFor s' b') st.loans).length ≤ 1 := h3 s' b'
        rw [← List.countP_eq_length_filter] at h3' ⊢
        rw [List.countP_map]
        refine le_trans (List.countP_mono_left fun x hx hpx => ?_) h3'
        simp only [Function.comp] at hpx
        unfold stampReturned at hpx
        split at hpx
        · unfold isActiveFor at hpx
          simp at hpx
        · exact hpx

theorem initState_loanInv : LoanInv initState := by
  refine ⟨List.nodup_nil, fun l hl => absurd hl (List.not_mem_nil l), fun s b => ?_⟩
  simp [activeLoans, initState]

theorem applyOp_preserves_loanInv (st : DBState) (op : Op) (h : LoanInv st) :
    LoanInv (applyOp st op) := by
  cases op with
  | registerSchool n p f d now =>
      exact loanInv_of_eq (register_school_loans st n p f d now).1
        (register_school_loans st n p f d now).2 h
  | addStudent s a n k =>
      exact loanInv_of_eq (add_student_loans st s a n k).1 (add_student_loans st s a n k).2 h
  | addBook s t a b nc c =>
      exact loanInv_of_eq (add_book_loans st s t a b nc c).1 (add_book_loans st s t a b nc c).2 h
  | deleteStudent s a now =>
      exact loanInv_of_eq (delete_student_loans st s a now).1 (delete_student_loans st s a now).2 h
  | deleteBook s b now =>
      exact loanInv_of_eq (delete_book_loans st s b now).1 (delete_book_loans st s b now).2 h
  | undoDeletion s u =>
      exact loanInv_of_eq (undo_deletion_loans st s u).1 (undo_deletion_loans st s u).2 h
  | borrowBook s b stu days now => exact borrow_book_preserves_loanInv st s b stu days now h
  | returnBook s b now => exact return_book_preserves_loanInv st s b now h
  | updateSchoolSettings s f d =>
      exact loanInv_of_eq (update_school_settings_loans st s f d).1
        (update_school_settings_loans st s f d).2 h

theorem foldl_preserves_loanInv (ops : List Op) :
    ∀ st : DBState, LoanInv st → LoanInv (ops.foldl applyOp st) := by
  induction ops with
  | nil => exact fun st h => h
  | cons op ops ih =>
      intro st h
      rw [List.foldl_cons]
      exact ih (applyOp st op) (applyOp_preserves_loanInv st op h)

theorem reachable_loanInv (st : DBState) (h : Reachable st) : LoanInv st := by
  obtain ⟨ops, rfl⟩ := h
  exact foldl_preserves_loanInv ops initState initState_loanInv

/-! ### Claim C1: at most one active loan per book -/

/-- C1: in every reachable database state, each (school, book) pair has at
most one active loan; `borrow_book` fails with "Book already borrowed" and
leaves the state unchanged whenever an active loan for that pair exists; any
`DB` call other than a `return_book` on that very pair keeps the active loan
in place (so the borrow keeps failing), and a `return_book` on the pair does
clear it. -/
theorem single_active_loan_invariant (st : DBState) (hrch : Reachable st) (s b : Nat) :
    (activeLoans st s b).length ≤ 1 ∧
    (activeLoans st s b ≠ [] →
      ∀ stu days now, borrow_book st s b stu days now = ((false, "Book already borrowed"), st)) ∧
    (∀ op : Op, (∀ now, op ≠ Op.returnBook s b now) →
      activeLoans st s b ≠ [] → activeLoans (applyOp st op) s b ≠ []) ∧
    (∀ now, activeLoans st s b ≠ [] →
      activeLoans (applyOp st (Op.returnBook s b now)) s b = []) := by
  refine ⟨(reachable_loanInv st hrch).2.2 s b, ?_, ?_, ?_⟩
  · -- an active loan blocks borrowing
    intro hAct stu days now
    have hfe : ∃ r, find_active_loan st s b = some r := by
      cases hf : find_active_loan st s b with
      | some r => exact ⟨r, rfl⟩
      | none =>
          exfalso
          apply hAct
          unfold activeLoans
          rw [List.filter_eq_nil_iff]
          unfold find_active_loan at hf
          exact fun l hl => List.find?_eq_none.mp hf l hl
    obtain ⟨r, hr⟩ := hfe
    unfold borrow_book
    rw [hr]
  · -- no call but a return of this very book clears the block
    intro op hne hAct
    cases op with
    | registerSchool n p f d now =>
        have h := (register_school_loans st n p f d now).1
        simp only [applyOp]
        unfold activeLoans at hAct ⊢
        rw [h]
        exact hAct
    | addStudent s₁ a n k =>
        have h := (add_student_loans st s₁ a n k).1
        simp only [applyOp]
        unfold activeLoans at hAct ⊢
        rw [h]
        exact hAct
    | addBook s₁ t a bc nc c =>
        have h := (add_book_loans st s₁ t a bc nc c).1
        simp only [applyOp]
        unfold activeLoans at hAct ⊢
        rw [h]
        exact hAct
    | deleteStudent s₁ a now =>
        have h := (delete_student_loans st s₁ a now).1
        simp only [applyOp]
        unfold activeLoans at hAct ⊢
        rw [h]
        exact hAct
    | deleteBook s₁ bc now =>
        have h := (delete_book_loans st s₁ bc now).1
        simp only [applyOp]
        unfold activeLoans at hAct ⊢
        rw [h]
        exact hAct
    | undoDeletion s₁ u =>
        have h := (undo_deletion_loans st s₁ u).1
        simp only [applyOp]
        unfold activeLoans at hAct ⊢
        rw [h]
        exact hAct
    | updateSchoolSettings s₁ f d =>
        have h := (update_school_settings_loans st s₁ f d).1
        simp only [applyOp]
        unfold activeLoans at hAct ⊢
        rw [h]
        exact hAct
    | borrowBook s' b' stu days now' =>
        simp only [applyOp]
        unfold borrow_book
        cases hf : find_active_loan st s' b' with
        | some r => exact hAct
        | none =>
            simp only
            unfold activeLoans at hAct ⊢
            simp only [List.filter_append]
            intro hcon
            exact hAct (List.append_eq_nil.mp hcon).1
    | returnBook s' b' now' =>
        have hnsb : ¬(s' = s ∧ b' = b) := by
          rintro ⟨hs, hb⟩
          exact hne now' (by rw [hs, hb])
        simp only [applyOp]
        cases hf : find_active_loan st s' b' with
        | none =>
            rw [return_book_snd_none st s' b' now' hf]
            exact hAct
        | some r =>
            rw [return_book_snd st s' b' now' r hf]
            have hnd := (reachable_loanInv st hrch).1
            obtain ⟨l, hl⟩ := List.exists_mem_of_ne_nil _ hAct
            have hlmem : l ∈ st.loans := (List.mem_filter.mp hl).1
            have hpl : isActiveFor s b l = true := (List.mem_filter.mp hl).2
            unfold find_active_loan at hf
            have hrmem : r ∈ st.loans := List.mem_of_find?_eq_some hf
            have hpr : isActiveFor s' b' r = true := List.find?_some hf
            have hlr : l ≠ r := by
              intro hEq
              subst hEq
              unfold isActiveFor at hpl hpr
              simp only [Bool.and_eq_true, beq_iff_eq] at hpl hpr
              obtain ⟨⟨hc1, hc2⟩, _⟩ := hpl
              obtain ⟨⟨hc3, hc4⟩, _⟩ := hpr
              exact hnsb ⟨by omega, by omega⟩
            have hid : l.id ≠ r.id :=
              fun hEq => hlr (List.inj_on_of_nodup_map hnd hlmem hrmem hEq)
            have hbeq : (l.id == r.id) = false := beq_eq_false_iff_ne.mpr hid
            have hstamp : stampReturned r.id now' l = l := by
              unfold stampReturned
              rw [hbeq]
              rfl
            have hmem' : l ∈ List.filter (isActiveFor s b)
                (List.map (stampReturned r.id now') st.loans) :=
              List.mem_filter.mpr ⟨List.mem_map.mpr ⟨l, hlmem, hstamp⟩, hpl⟩
            unfold activeLoans
            exact List.ne_nil_of_mem hmem'
  · -- a return of this book does clear the block
    intro now hAct
    simp only [applyOp]
    cases hf : find_active_loan st s b with
    | none =>
        exfalso
        apply hAct
        unfold activeLoans
        rw [List.filter_eq_nil_iff]
        unfold find_active_loan at hf
        exact fun l hl => List.find?_eq_none.mp hf l hl
    | some r =>
        rw [return_book_snd st s b now r hf]
        unfold find_active_loan at hf
        unfold activeLoans
        rw [List.filter_eq_nil_iff]
        intro l hl
        rw [List.mem_map] at hl
        obtain ⟨x, hx, rfl⟩ := hl
        intro hpx
        by_cases hxid : x.id = r.id
        · unfold stampReturned at hpx
          rw [if_pos (by simpa using hxid)] at hpx
          unfold isActiveFor at hpx
          simp at hpx
        · have hbeq : (x.id == r.id) = false := beq_eq_false_iff_ne.mpr hxid
          unfold stampReturned at hpx
          rw [hbeq] at hpx
          simp only [Bool.false_eq_true, if_false] at hpx
          have hxact : x ∈ activeLoans st s b := List.mem_filter.mpr ⟨hx, hpx⟩
          have hract : r ∈ activeLoans st s b :=
            List.mem_filter.mpr ⟨List.mem_of_find?_eq_some hf, List.find?_some hf⟩
          have hle := (reachable_loanInv st hrch).2.2 s b
          exact hxid (congrArg LoanRow.id (eq_of_mem_of_length_le_one hle hxact hract))

/-- Witness for C1: the theorem applied to the concrete reachable state in
which school 1's book 1 has just been borrowed. -/
theorem single_active_loan_invariant_witness :
    (activeLoans ([Op.borrowBook 1 1 1 none ⟨0, 0⟩].foldl applyOp initState) 1 1).length ≤ 1 ∧
    (activeLoans ([Op.borrowBook 1 1 1 none ⟨0, 0⟩].foldl applyOp initState) 1 1 ≠ [] →
      ∀ stu days now,
        borrow_book ([Op.borrowBook 1 1 1 none ⟨0, 0⟩].foldl applyOp initState) 1 1 stu days now =
          ((false, "Book already borrowed"), [Op.borrowBook 1 1 1 none ⟨0, 0⟩].foldl applyOp initState)) ∧
    (∀ op : Op, (∀ now, op ≠ Op.returnBook 1 1 now) →
      activeLoans ([Op.borrowBook 1 1 1 none ⟨0, 0⟩].foldl applyOp initState) 1 1 ≠ [] →
      activeLoans (applyOp ([Op.borrowBook 1 1 1 none ⟨0, 0⟩].foldl applyOp initState) op) 1 1 ≠ []) ∧
    (∀ now, activeLoans ([Op.borrowBook 1 1 1 none ⟨0, 0⟩].foldl applyOp initState) 1 1 ≠ [] →
      activeLoans (applyOp ([Op.borrowBook 1 1 1 none ⟨0, 0⟩].foldl applyOp initState)
        (Op.returnBook 1 1 now)) 1 1 = []) :=
  single_active_loan_invariant ([Op.borrowBook 1 1 1 none ⟨0, 0⟩].foldl applyOp initState)
    ⟨[Op.borrowBook 1 1 1 none ⟨0, 0⟩], rfl⟩ 1 1

/-! ### Helper lemmas for the delete/undo and fine claims -/

theorem delete_student_students (st : DBState) (s : Nat) (adm : String) (now : DateTime) :
    (delete_student st s adm now).students
      = st.students.filter (fun x => !studentKeyMatch s adm x) := by
  unfold delete_student
  split <;> rfl

theorem delete_book_books (st : DBState) (s : Nat) (bc : String) (now : DateTime) :
    (delete_book st s bc now).books
      = st.books.filter (fun x => !bookKeyMatch s bc x) := by
  unfold delete_book
  split <;> rfl

theorem mem_insertDescByDeletedAt (u x : UndoRow) (l : List UndoRow) :
    x ∈ insertDescByDeletedAt u l ↔ x = u ∨ x ∈ l := by
  induction l with
  | nil => simp [insertDescByDeletedAt]
  | cons v vs ih =>
      unfold insertDescByDeletedAt
      split
      · simp [List.mem_cons]
      · simp only [List.mem_cons, ih]
        tauto

theorem mem_sortDescByDeletedAt (x : UndoRow) (l : List UndoRow) :
    x ∈ sortDescByDeletedAt l ↔ x ∈ l := by
  induction l with
  | nil => simp [sortDescByDeletedAt]
  | cons v vs ih =>
      unfold sortDescByDeletedAt
      rw [mem_insertDescByDeletedAt]
      simp [List.mem_cons, ih]

theorem mem_undo_log_of_mem_recent (st : DBState) (s lim : Nat) (u : UndoRow)
    (h : u ∈ get_recent_deletions st s lim) : u ∈ st.undo_log := by
  unfold get_recent_deletions at h
  have h1 := List.take_subset _ _ h
  rw [mem_sortDescByDeletedAt] at h1
  exact (List.mem_filter.mp h1).1

theorem return_book_eq_of_some (st : DBState) (s b : Nat) (now : DateTime)
    (r : LoanRow) (sch : SchoolRow)
    (hr : find_active_loan st s b = some r)
    (hsch : st.schools.find? (fun x => x.id == s) = some sch) :
    return_book st s b now =
      if 0 < now.date - r.due_date.date then
        (ReturnResult.returnedFine ((now.date - r.due_date.date) * sch.fine_per_day)
          (now.date - r.due_date.date),
         { st with loans := st.loans.map (stampReturned r.id now) })
      else
        (ReturnResult.returnedNoFine,
         { st with loans := st.loans.map (stampReturned r.id now) }) := by
  unfold return_book stampReturned
  rw [hr, hsch]

theorem find?_schools_after_update (schools : List SchoolRow) (s : Nat) (f d : Int) :
    (schools.map (fun x =>
        if x.id == s then { x with fine_per_day := f, default_loan_days := d } else x)).find?
        (fun x => x.id == s)
      = (schools.find? (fun x => x.id == s)).map
          (fun x => { x with fine_per_day := f, default_loan_days := d }) := by
  induction schools with
  | nil => rfl
  | cons a l ih =>
      by_cases hc : (a.id == s) = true
      · have hg : ((if a.id == s then
            ({ a with fine_per_day := f, default_loan_days := d } : SchoolRow) else a)) =
            { a with fine_per_day := f, default_loan_days := d } := by
          rw [hc]
          rfl
        have hc' : (({ a with fine_per_day := f, default_loan_days := d } : SchoolRow).id == s)
            = true := hc
        rw [List.map_cons, hg, @List.find?_cons_of_pos SchoolRow (fun x => x.id == s) _ _ hc',
          @List.find?_cons_of_pos SchoolRow (fun x => x.id == s) _ _ hc]
        rfl
      · have hcf : (a.id == s) = false := Bool.eq_false_iff.mpr hc
        have hg : ((if a.id == s then
            ({ a with fine_per_day := f, default_loan_days := d } : SchoolRow) else a)) = a := by
          rw [hcf]
          rfl
        rw [List.map_cons, hg, @List.find?_cons_of_neg SchoolRow (fun x => x.id == s) _ _ hc,
          @List.find?_cons_of_neg SchoolRow (fun x => x.id == s) _ _ hc]
        exact ih

theorem return_book_success_of_some (st : DBState) (s b : Nat) (now : DateTime)
    (r : LoanRow) (hf : find_active_loan st s b = some r) :
    ((return_book st s b now).1).success = true := by
  unfold return_book
  rw [hf]
  simp only
  rw [apply_ite Prod.fst, apply_ite ReturnResult.success]
  split <;> rfl

/-! ### Claim C2: calendar-day fine computation -/

/-- C2: on a successful return the reported fine is
`max 0 (returned_at.date() - due_date.date()) * fine_per_day`, with
time-of-day discarded before subtracting; returning on or before the due
date reports no fine; and the spec's Oakview example (fine 10/day, 14 loan
days, returned 17 days after borrowing) reports a fine of 30 (3 days late). -/
theorem return_fine_calendar_days (st : DBState) (sch : SchoolRow) (r : LoanRow)
    (s b : Nat) (now : DateTime)
    (hr : find_active_loan st s b = some r)
    (hsch : st.schools.find? (fun x => x.id == s) = some sch) :
    ((return_book st s b now).1).reportedFine
        = max 0 (now.date - r.due_date.date) * sch.fine_per_day ∧
    (now.date ≤ r.due_date.date → (return_book st s b now).1 = ReturnResult.returnedNoFine) ∧
    (return_book (borrow_book oakviewState 1 1 1 none ⟨0, 200⟩).2 1 1 ⟨17, 90⟩).1
        = ReturnResult.returnedFine 30 3 := by
  rw [return_book_eq_of_some st s b now r sch hr hsch]
  refine ⟨?_, ?_, by decide⟩
  · by_cases hdl : 0 < now.date - r.due_date.date
    · rw [if_pos hdl, max_eq_right (le_of_lt hdl)]
      rfl
    · rw [if_neg hdl, max_eq_left (le_of_not_lt hdl), zero_mul]
      rfl
  · intro hle
    have hndl : ¬ 0 < now.date - r.due_date.date := by omega
    rw [if_neg hndl]

/-- Witness for C2: the theorem at the concrete Oakview state with the loan
due on day 14, returned on day 17. -/
theorem return_fine_calendar_days_witness :
    ((return_book oakviewLoanState 1 1 ⟨17, 90⟩).1).reportedFine
        = max 0 ((⟨17, 90⟩ : DateTime).date - oakviewLoan.due_date.date) * oakview.fine_per_day ∧
    ((⟨17, 90⟩ : DateTime).date ≤ oakviewLoan.due_date.date →
      (return_book oakviewLoanState 1 1 ⟨17, 90⟩).1 = ReturnResult.returnedNoFine) ∧
    (return_book (borrow_book oakviewState 1 1 1 none ⟨0, 200⟩).2 1 1 ⟨17, 90⟩).1
        = ReturnResult.returnedFine 30 3 :=
  return_fine_calendar_days oakviewLoanState oakview oakviewLoan 1 1 ⟨17, 90⟩ rfl rfl

/-! ### Claim C3: undo after key reuse -/

/-- C3 is refuted by the code: when the snapshotted admission number has
been reused, `undo_deletion` still reports `(True, "Record restored")`,
deletes the undo-log entry, and restores nothing. `add_student` catches the
duplicate-key `IntegrityError` itself and returns `False`, a value
`undo_deletion` ignores, so the `except` branch the claim describes is
unreachable. This closed theorem evaluates `undo_deletion` on the concrete
conflict state: the call reports success, empties the undo log, and leaves
the student table without the snapshotted "Jane" row. -/
theorem undo_conflict_reports_success_bug :
    (undo_deletion reusedAdmissionState 1 1).1 = (true, "Record restored") ∧
    (undo_deletion reusedAdmissionState 1 1).2.undo_log = [] ∧
    (undo_deletion reusedAdmissionState 1 1).2.students = reusedAdmissionState.students := by
  decide

/-! ### Claim C8: return fails exactly when no active loan exists -/

/-- C8: `return_book` fails (reporting "No active loan", leaving the state
unchanged, raising nothing) precisely when no active loan exists for the
book in the school; when one exists, that loan is stamped with
`returned_at = now` — its stamped copy is in the table and every loan row
with its id carries `returned_at = now`, so the loan is no longer active. -/
theorem return_book_fails_iff_no_active_loan (st : DBState) (s b : Nat) (now : DateTime) :
    (((return_book st s b now).1).success = false ↔ find_active_loan st s b = none) ∧
    (find_active_loan st s b = none → return_book st s b now = (ReturnResult.noActiveLoan, st)) ∧
    (∀ r, find_active_loan st s b = some r →
      ({ r with returned_at := some now } : LoanRow) ∈ (return_book st s b now).2.loans ∧
      (∀ l ∈ (return_book st s b now).2.loans, l.id = r.id → l.returned_at = some now)) := by
  cases hf : find_active_loan st s b with
  | none =>
      have he : return_book st s b now = (ReturnResult.noActiveLoan, st) := by
        unfold return_book
        rw [hf]
      refine ⟨?_, fun _ => he, ?_⟩
      · rw [he]
        simp [ReturnResult.success]
      · intro r hr
        cases hr
  | some r =>
      have hsucc := return_book_success_of_some st s b now r hf
      refine ⟨?_, ?_, ?_⟩
      · constructor
        · intro h
          rw [hsucc] at h
          cases h
        · intro h
          cases h
      · intro h
        cases h
      · intro r' hr'
        injection hr' with hrr
        subst hrr
        rw [return_book_snd st s b now r hf]
        constructor
        · refine List.mem_map.mpr ⟨r, List.mem_of_find?_eq_some hf, ?_⟩
          unfold stampReturned
          rw [beq_self_eq_true]
          rfl
        · intro l hl hid
          rw [List.mem_map] at hl
          obtain ⟨x, hx, rfl⟩ := hl
          unfold stampReturned at hid ⊢
          by_cases hxid : (x.id == r.id) = true
          · rw [if_pos hxid]
          · rw [if_neg hxid] at hid
            exact absurd (beq_iff_eq.mpr hid) hxid

/-- Witness for C8: the theorem at the Oakview state with one active loan. -/
theorem return_book_fails_iff_no_active_loan_witness :
    (((return_book oakviewLoanState 1 1 ⟨17, 90⟩).1).success = false ↔
        find_active_loan oakviewLoanState 1 1 = none) ∧
    (find_active_loan oakviewLoanState 1 1 = none →
      return_book oakviewLoanState 1 1 ⟨17, 90⟩ = (ReturnResult.noActiveLoan, oakviewLoanState)) ∧
    (∀ r, find_active_loan oakviewLoanState 1 1 = some r →
      ({ r with returned_at := some ⟨17, 90⟩ } : LoanRow)
          ∈ (return_book oakviewLoanState 1 1 ⟨17, 90⟩).2.loans ∧
      (∀ l ∈ (return_book oakviewLoanState 1 1 ⟨17, 90⟩).2.loans,
        l.id = r.id → l.returned_at = some ⟨17, 90⟩)) :=
  return_book_fails_iff_no_active_loan oakviewLoanState 1 1 ⟨17, 90⟩

/-! ### Claim C10: borrow_book validates no foreign keys -/

/-- C10: `borrow_book` only queries the loans table (and the schools table
for the default loan period); it never checks that the book or student
exists. On any state with no active loan for the pair it succeeds and
appends the loan row, even when no book row with id `b` and no student row
with id `stu` exist — the schema's declared FOREIGN KEYs are not enforced
by the sqlite connection. -/
theorem borrow_ignores_foreign_keys (st : DBState) (s b stu : Nat) (days : Option Int)
    (now : DateTime)
    (hno : find_active_loan st s b = none)
    (hbook : ∀ B ∈ st.books, B.id ≠ b)
    (hstu : ∀ X ∈ st.students, X.id ≠ stu) :
    (borrow_book st s b stu days now).1 = (true, "Borrow recorded") ∧
    (∃ d : Int, (borrow_book st s b stu days now).2 =
      { st with
        loans := st.loans ++ [⟨st.next_loan_id, s, b, stu, now, now.addDays d, none, false⟩],
        next_loan_id := st.next_loan_id + 1 }) := by
  unfold borrow_book
  rw [hno]
  simp only
  exact ⟨trivial, ⟨_, rfl⟩⟩

/-- Witness for C10: borrowing on the empty freshly-initialised database
(no school, no book, no student) succeeds and records a loan. -/
theorem borrow_ignores_foreign_keys_witness :
    (borrow_book initState 1 1 1 none ⟨5, 5⟩).1 = (true, "Borrow recorded") ∧
    (∃ d : Int, (borrow_book initState 1 1 1 none ⟨5, 5⟩).2 =
      { initState with
        loans := initState.loans ++
          [⟨initState.next_loan_id, 1, 1, 1, ⟨5, 5⟩, DateTime.addDays ⟨5, 5⟩ d, none, false⟩],
        next_loan_id := initState.next_loan_id + 1 }) :=
  borrow_ignores_foreign_keys initState 1 1 1 none ⟨5, 5⟩ rfl (by decide) (by decide)

/-! ### Claim C6: delete snapshots exactly one undo entry, no-op when absent -/

/-- C6: when a matching student/book row exists, `delete_student` /
`delete_book` appends exactly one undo-log entry holding the full serialized
row and then removes the matching rows; when no row matches, the call is a
total no-op (no raised error, state unchanged, no undo entry). -/
theorem delete_snapshots_exactly_one_entry (st : DBState) (s : Nat) (adm bc : String)
    (now : DateTime) :
    (∀ X, st.students.find? (studentKeyMatch s adm) = some X →
      (delete_student st s adm now).undo_log
          = st.undo_log ++ [⟨st.next_undo_id, s, .students X, now⟩] ∧
      (delete_student st s adm now).students
          = st.students.filter (fun x => !studentKeyMatch s adm x)) ∧
    (st.students.find? (studentKeyMatch s adm) = none → delete_student st s adm now = st) ∧
    (∀ B, st.books.find? (bookKeyMatch s bc) = some B →
      (delete_book st s bc now).undo_log
          = st.undo_log ++ [⟨st.next_undo_id, s, .books B, now⟩] ∧
      (delete_book st s bc now).books
          = st.books.filter (fun x => !bookKeyMatch s bc x)) ∧
    (st.books.find? (bookKeyMatch s bc) = none → delete_book st s bc now = st) := by
  refine ⟨?_, ?_, ?_, ?_⟩
  · intro X hX
    refine ⟨?_, delete_student_students st s adm now⟩
    unfold delete_student
    rw [hX]
  · intro hX
    have hall : ∀ x ∈ st.students, (!studentKeyMatch s adm x) = true := by
      intro x hx
      have := List.find?_eq_none.mp hX x hx
      simp only [Bool.not_eq_true']
      exact Bool.eq_false_iff.mpr this
    have hfil : st.students.filter (fun x => !studentKeyMatch s adm x) = st.students :=
      List.filter_eq_self.mpr hall
    unfold delete_student
    rw [hX]
    show ({ st with students := st.students.filter (fun x => !studentKeyMatch s adm x) }
        : DBState) = st
    rw [hfil]
  · intro B hB
    refine ⟨?_, delete_book_books st s bc now⟩
    unfold delete_book
    rw [hB]
  · intro hB
    have hall : ∀ x ∈ st.books, (!bookKeyMatch s bc x) = true := by
      intro x hx
      have := List.find?_eq_none.mp hB x hx
      simp only [Bool.not_eq_true']
      exact Bool.eq_false_iff.mpr this
    have hfil : st.books.filter (fun x => !bookKeyMatch s bc x) = st.books :=
      List.filter_eq_self.mpr hall
    unfold delete_book
    rw [hB]
    show ({ st with books := st.books.filter (fun x => !bookKeyMatch s bc x) } : DBState) = st
    rw [hfil]

/-- Witness for C6: deleting "A100" at Oakview snapshots Jane's full row and
removes her; deleting the unknown barcode "ZZZ" is a no-op. -/
theorem delete_snapshots_exactly_one_entry_witness :
    ((delete_student oakviewState 1 "A100" ⟨3, 3⟩).undo_log
        = oakviewState.undo_log ++ [⟨oakviewState.next_undo_id, 1, .students janeRow, ⟨3, 3⟩⟩]) ∧
    ((delete_student oakviewState 1 "A100" ⟨3, 3⟩).students
        = oakviewState.students.filter (fun x => !studentKeyMatch 1 "A100" x)) ∧
    delete_book oakviewState 1 "ZZZ" ⟨3, 3⟩ = oakviewState :=
  ⟨((delete_snapshots_exactly_one_entry oakviewState 1 "A100" "ZZZ" ⟨3, 3⟩).1 janeRow
      (by decide)).1,
   ((delete_snapshots_exactly_one_entry oakviewState 1 "A100" "ZZZ" ⟨3, 3⟩).1 janeRow
      (by decide)).2,
   (delete_snapshots_exactly_one_entry oakviewState 1 "A100" "ZZZ" ⟨3, 3⟩).2.2.2 (by decide)⟩

/-! ### Claim C7: admission numbers unique per school only -/

/-- C7: after a successful `add_student` of admission number `adm` under
school `s`, a second add of the same admission number under `s` returns the
boolean failure `false` (the caught UNIQUE violation — never a raised
fault), while adding the same admission number under a different school `s'`
(that does not already use it) returns `true`. -/
theorem admission_unique_per_school (st : DBState) (s s' : Nat) (adm n k n' k' : String)
    (hne : s ≠ s')
    (h1 : (add_student st s adm n k).1 = true)
    (h2 : ∀ y ∈ st.students, ¬(y.school_id = s' ∧ y.admission_no = adm)) :
    (add_student (add_student st s adm n k).2 s adm n' k').1 = false ∧
    (add_student (add_student st s adm n k).2 s' adm n' k').1 = true := by
  cases hc : st.students.any (fun y => y.school_id == s && y.admission_no == adm) with
  | true =>
      exfalso
      unfold add_student at h1
      rw [hc] at h1
      cases h1
  | false =>
      have hsnd : (add_student st s adm n k).2 =
          { st with
            students := st.students ++ [⟨st.next_student_id, s, adm, n, k⟩],
            next_student_id := st.next_student_id + 1 } := by
        unfold add_student
        rw [hc]
        rfl
      constructor
      · have hcond : ({ st with
            students := st.students ++ [⟨st.next_student_id, s, adm, n, k⟩],
            next_student_id := st.next_student_id + 1 } : DBState).students.any
              (fun y => y.school_id == s && y.admission_no == adm) = true := by
          simp [List.any_append]
        rw [hsnd]
        unfold add_student
        rw [hcond]
        rfl
      · have hcond2 : ({ st with
            students := st.students ++ [⟨st.next_student_id, s, adm, n, k⟩],
            next_student_id := st.next_student_id + 1 } : DBState).students.any
              (fun y => y.school_id == s' && y.admission_no == adm) = false := by
          simp only [List.any_append, Bool.or_eq_false_iff]
          constructor
          · rw [List.any_eq_false]
            intro y hy
            simp only [Bool.and_eq_true, beq_iff_eq]
            rintro ⟨hA, hB⟩
            exact h2 y hy ⟨hA, hB⟩
          · simp only [List.any_cons, List.any_nil, Bool.or_false]
            simp only [Bool.and_eq_false_iff, beq_eq_false_iff_ne]
            left
            exact hne
        rw [hsnd]
        unfold add_student
        rw [hcond2]
        rfl

/-- Witness for C7: on the fresh database, add "A100" under school 1, then
add it again under school 1 (fails) and under school 2 (succeeds). -/
theorem admission_unique_per_school_witness :
    (add_student (add_student initState 1 "A100" "Bob" "F2").2 1 "A100" "Ann" "F3").1 = false ∧
    (add_student (add_student initState 1 "A100" "Bob" "F2").2 2 "A100" "Ann" "F3").1 = true :=
  admission_unique_per_school initState 1 2 "A100" "Bob" "F2" "Ann" "F3"
    (by decide) (by decide) (by decide)

/-! ### Claim C9: which settings are read at borrow and at return -/

/-- C9 as stated is refuted on a concrete loan returned on its due date: the
school's `fine_per_day` is updated from 10 to 20 between borrow and return,
the loan is active at return time, yet the reported result is identical
("Returned. No fine." in both runs) — updating `fine_per_day` between borrow
and return does not change the reported fine for an on-time return. -/
theorem fine_rate_update_unchanged_on_time :
    (update_school_settings oakviewLoanState 1 20 14).schools.map SchoolRow.fine_per_day
        = [20] ∧
    oakviewLoanState.schools.map SchoolRow.fine_per_day = [10] ∧
    (find_active_loan oakviewLoanState 1 1).isSome = true ∧
    (return_book (update_school_settings oakviewLoanState 1 20 14) 1 1 ⟨14, 999⟩).1
        = (return_book oakviewLoanState 1 1 ⟨14, 999⟩).1 := by
  decide

/-- C9 amended: the fine is computed from `fine_per_day` as stored at the
moment of return and the due date from `default_loan_days` as stored at the
moment of borrow; hence `update_school_settings` between borrow and return
leaves every loan row (and so the due date) untouched, makes a late return
report `days_late * f'` at the new rate `f'`, and therefore changes the
reported fine whenever the return is late and the new rate differs. -/
theorem fine_rate_read_at_return (st : DBState) (sch : SchoolRow) (r : LoanRow)
    (s b : Nat) (now : DateTime) (f' d' : Int)
    (hr : find_active_loan st s b = some r)
    (hsch : st.schools.find? (fun x => x.id == s) = some sch)
    (hlate : 0 < now.date - r.due_date.date) :
    (update_school_settings st s f' d').loans = st.loans ∧
    find_active_loan (update_school_settings st s f' d') s b = some r ∧
    (return_book (update_school_settings st s f' d') s b now).1
        = ReturnResult.returnedFine ((now.date - r.due_date.date) * f')
            (now.date - r.due_date.date) ∧
    (f' ≠ sch.fine_per_day →
      (return_book (update_school_settings st s f' d') s b now).1
          ≠ (return_book st s b now).1) := by
  have hloans : (update_school_settings st s f' d').loans = st.loans := rfl
  have hfa : find_active_loan (update_school_settings st s f' d') s b = some r := hr
  have hsch' : (update_school_settings st s f' d').schools.find? (fun x => x.id == s)
      = some { sch with fine_per_day := f', default_loan_days := d' } := by
    show (st.schools.map (fun x =>
        if x.id == s then { x with fine_per_day := f', default_loan_days := d' } else x)).find?
        (fun x => x.id == s) = _
    rw [find?_schools_after_update, hsch]
    rfl
  have hnew := return_book_eq_of_some (update_school_settings st s f' d') s b now r
    { sch with fine_per_day := f', default_loan_days := d' } hfa hsch'
  have hold := return_book_eq_of_some st s b now r sch hr hsch
  refine ⟨hloans, hfa, ?_, ?_⟩
  · rw [hnew, if_pos hlate]
  · intro hfne heq
    rw [hnew, hold, if_pos hlate, if_pos hlate] at heq
    have heq' : ReturnResult.returnedFine ((now.date - r.due_date.date) * f')
          (now.date - r.due_date.date)
        = ReturnResult.returnedFine ((now.date - r.due_date.date) * sch.fine_per_day)
          (now.date - r.due_date.date) := heq
    injection heq' with hf _
    exact hfne (mul_left_cancel₀ (ne_of_gt hlate) hf)

/-- Witness for the amended C9: the Oakview loan due on day 14, returned on
day 17 after the rate was changed from 10 to 25. -/
theorem fine_rate_read_at_return_witness :
    (update_school_settings oakviewLoanState 1 25 7).loans = oakviewLoanState.loans ∧
    find_active_loan (update_school_settings oakviewLoanState 1 25 7) 1 1 = some oakviewLoan ∧
    (return_book (update_school_settings oakviewLoanState 1 25 7) 1 1 ⟨17, 90⟩).1
        = ReturnResult.returnedFine
            (((⟨17, 90⟩ : DateTime).date - oakviewLoan.due_date.date) * 25)
            ((⟨17, 90⟩ : DateTime).date - oakviewLoan.due_date.date) ∧
    ((25 : Int) ≠ oakview.fine_per_day →
      (return_book (update_school_settings oakviewLoanState 1 25 7) 1 1 ⟨17, 90⟩).1
          ≠ (return_book oakviewLoanState 1 1 ⟨17, 90⟩).1) :=
  fine_rate_read_at_return oakviewLoanState oakview oakviewLoan 1 1 ⟨17, 90⟩ 25 7
    rfl rfl (by decide)

/-! ### Claim C4: delete-then-undo round trip for a student -/

theorem undo_deletion_eq_of_found_student (st : DBState) (s uid : Nat) (E : UndoRow)
    (X : StudentRow)
    (hfu : st.undo_log.find? (fun r => r.id == uid && r.school_id == s) = some E)
    (hdata : E.data = .students X) :
    undo_deletion st s uid =
      ((true, "Record restored"),
       { (add_student st s X.admission_no X.name X.klass).2 with
         undo_log := ((add_student st s X.admission_no X.name X.klass).2).undo_log.filter
           (fun r => r.id != uid) }) := by
  unfold undo_deletion
  rw [hfu]
  simp only
  rw [hdata]

/-- C4: deleting a student (whose row the lookup fetches) and then undoing
the freshly created undo-log entry reports success, reinstates a student row
with the identical `admission_no`, `name` and `class` fields in the same
school, and removes that entry from the recent-deletions list. -/
theorem delete_undo_roundtrip (st : DBState) (s : Nat) (adm : String) (X : StudentRow)
    (now : DateTime)
    (hfind : st.students.find? (studentKeyMatch s adm) = some X)
    (hfresh : ∀ u ∈ st.undo_log, u.id < st.next_undo_id) :
    (undo_deletion (delete_student st s adm now) s st.next_undo_id).1
        = (true, "Record restored") ∧
    (∃ Y ∈ (undo_deletion (delete_student st s adm now) s st.next_undo_id).2.students,
      Y.school_id = s ∧ Y.admission_no = X.admission_no ∧ Y.name = X.name ∧
        Y.klass = X.klass) ∧
    (∀ u ∈ get_recent_deletions
        (undo_deletion (delete_student st s adm now) s st.next_undo_id).2 s 10,
      u.id ≠ st.next_undo_id) := by
  have hXkey : studentKeyMatch s adm X = true := List.find?_some hfind
  have hXs : X.school_id = s ∧ X.admission_no = adm := by
    unfold studentKeyMatch at hXkey
    simp only [Bool.and_eq_true, beq_iff_eq] at hXkey
    exact hXkey
  have hst1 : delete_student st s adm now =
      { st with
        students := st.students.filter (fun x => !studentKeyMatch s adm x),
        undo_log := st.undo_log ++ [⟨st.next_undo_id, s, .students X, now⟩],
        next_undo_id := st.next_undo_id + 1 } := by
    unfold delete_student
    rw [hfind]
  have hfu : ({ st with
        students := st.students.filter (fun x => !studentKeyMatch s adm x),
        undo_log := st.undo_log ++ [(⟨st.next_undo_id, s, .students X, now⟩ : UndoRow)],
        next_undo_id := st.next_undo_id + 1 } : DBState).undo_log.find?
        (fun r => r.id == st.next_undo_id && r.school_id == s)
      = some (⟨st.next_undo_id, s, .students X, now⟩ : UndoRow) := by
    show (st.undo_log ++ [(⟨st.next_undo_id, s, .students X, now⟩ : UndoRow)]).find?
        (fun r => r.id == st.next_undo_id && r.school_id == s)
      = some (⟨st.next_undo_id, s, .students X, now⟩ : UndoRow)
    rw [List.find?_append]
    have h1 : st.undo_log.find? (fun r => r.id == st.next_undo_id && r.school_id == s)
        = none := by
      rw [List.find?_eq_none]
      intro u hu
      simp only [Bool.and_eq_true, beq_iff_eq]
      rintro ⟨hA, _⟩
      have := hfresh u hu
      omega
    rw [h1, Option.none_or, List.find?_cons_of_pos _ (by simp)]
  rw [hst1]
  rw [undo_deletion_eq_of_found_student _ _ _ _ X hfu rfl]
  have hnodup : (st.students.filter (fun x => !studentKeyMatch s adm x)).any
      (fun y => y.school_id == s && y.admission_no == X.admission_no) = false := by
    rw [List.any_eq_false]
    intro y hy
    have hkeep := (List.mem_filter.mp hy).2
    simp only [Bool.not_eq_true'] at hkeep
    unfold studentKeyMatch at hkeep
    simp only [Bool.and_eq_false_iff, beq_eq_false_iff_ne] at hkeep
    simp only [Bool.and_eq_true, beq_iff_eq]
    rintro ⟨hA, hB⟩
    rcases hkeep with h | h
    · exact h hA
    · rw [hXs.2] at hB
      exact h hB
  have hadd : (add_student ({ st with
        students := st.students.filter (fun x => !studentKeyMatch s adm x),
        undo_log := st.undo_log ++ [⟨st.next_undo_id, s, .students X, now⟩],
        next_undo_id := st.next_undo_id + 1 } : DBState) s X.admission_no X.name X.klass).2
      = { st with
          students := st.students.filter (fun x => !studentKeyMatch s adm x)
            ++ [⟨st.next_student_id, s, X.admission_no, X.name, X.klass⟩],
          undo_log := st.undo_log ++ [⟨st.next_undo_id, s, .students X, now⟩],
          next_student_id := st.next_student_id + 1,
          next_undo_id := st.next_undo_id + 1 } := by
    unfold add_student
    rw [show (({ st with
        students := st.students.filter (fun x => !studentKeyMatch s adm x),
        undo_log := st.undo_log ++ [⟨st.next_undo_id, s, .students X, now⟩],
        next_undo_id := st.next_undo_id + 1 } : DBState).students.any
          (fun y => y.school_id == s && y.admission_no == X.admission_no)) = false from hnodup]
    rfl
  rw [hadd]
  refine ⟨rfl, ?_, ?_⟩
  · refine ⟨⟨st.next_student_id, s, X.admission_no, X.name, X.klass⟩, ?_, rfl, rfl, rfl, rfl⟩
    show _ ∈ st.students.filter (fun x => !studentKeyMatch s adm x)
        ++ [⟨st.next_student_id, s, X.admission_no, X.name, X.klass⟩]
    rw [List.mem_append, List.mem_singleton]
    right
    rfl
  · intro u hu
    have hu' := mem_undo_log_of_mem_recent _ _ _ _ hu
    have hu'' : u ∈ ((st.undo_log ++
          [(⟨st.next_undo_id, s, .students X, now⟩ : UndoRow)]).filter
        (fun r => r.id != st.next_undo_id)) := hu'
    have hkeep := (List.mem_filter.mp hu'').2
    rwa [bne_iff_ne] at hkeep

/-- Witness for C4: delete Jane at Oakview, then undo that very entry. -/
theorem delete_undo_roundtrip_witness :
    (undo_deletion (delete_student oakviewState 1 "A100" ⟨3, 7⟩) 1
        oakviewState.next_undo_id).1 = (true, "Record restored") ∧
    (∃ Y ∈ (undo_deletion (delete_student oakviewState 1 "A100" ⟨3, 7⟩) 1
        oakviewState.next_undo_id).2.students,
      Y.school_id = 1 ∧ Y.admission_no = janeRow.admission_no ∧ Y.name = janeRow.name ∧
        Y.klass = janeRow.klass) ∧
    (∀ u ∈ get_recent_deletions (undo_deletion (delete_student oakviewState 1 "A100" ⟨3, 7⟩) 1
        oakviewState.next_undo_id).2 1 10,
      u.id ≠ oakviewState.next_undo_id) :=
  delete_undo_roundtrip oakviewState 1 "A100" janeRow ⟨3, 7⟩ (by decide) (by decide)

/-! ### Claim C5: active loans block deletion -/

/-- C5: the guarded deletion flow (the `has_active_loans_student` /
`has_active_loans_book` check in front of the store delete, as the UI
performs it) rejects and leaves the whole state unchanged for any student or
book with at least one active loan, and succeeds — removing the row — for
one with none. The hypotheses are the tenant-consistency facts every state
produced by the application satisfies: active loans reference rows of their
own school, and admission numbers / barcodes are unique per school. -/
theorem deletion_guard (st : DBState) (now : DateTime)
    (htenant_s : ∀ l ∈ st.loans, l.returned_at = none →
      ∀ y ∈ st.students, y.id = l.student_id → y.school_id = l.school_id)
    (htenant_b : ∀ l ∈ st.loans, l.returned_at = none →
      ∀ y ∈ st.books, y.id = l.book_id → y.school_id = l.school_id)
    (huniq_s : ∀ y ∈ st.students, ∀ z ∈ st.students,
      y.school_id = z.school_id → y.admission_no = z.admission_no → y = z)
    (huniq_b : ∀ y ∈ st.books, ∀ z ∈ st.books,
      y.school_id = z.school_id → y.barcode = z.barcode → y = z) :
    (∀ X ∈ st.students,
      (hasActiveLoanStudentRow st X →
        delete_student_checked st X.school_id X.admission_no now = (false, st)) ∧
      (¬hasActiveLoanStudentRow st X →
        (delete_student_checked st X.school_id X.admission_no now).1 = true ∧
        X ∉ (delete_student_checked st X.school_id X.admission_no now).2.students)) ∧
    (∀ B ∈ st.books,
      (hasActiveLoanBookRow st B →
        delete_book_checked st B.school_id B.barcode now = (false, st)) ∧
      (¬hasActiveLoanBookRow st B →
        (delete_book_checked st B.school_id B.barcode now).1 = true ∧
        B ∉ (delete_book_checked st B.school_id B.barcode now).2.books)) := by
  constructor
  · intro X hX
    constructor
    · rintro ⟨l, hl, hls, hlsch, hret⟩
      have hhas : has_active_loans_student st X.school_id X.admission_no = true := by
        unfold has_active_loans_student
        rw [List.any_eq_true]
        refine ⟨l, hl, ?_⟩
        simp only [Bool.and_eq_true, beq_iff_eq]
        refine ⟨⟨hlsch, ?_⟩, ?_⟩
        · rw [Option.isNone_iff_eq_none]
          exact hret
        · rw [List.any_eq_true]
          refine ⟨X, hX, ?_⟩
          simp [hls]
      unfold delete_student_checked
      rw [hhas]
      rfl
    · intro hno
      have hhas : has_active_loans_student st X.school_id X.admission_no = false := by
        cases hcase : has_active_loans_student st X.school_id X.admission_no with
        | false => rfl
        | true =>
            exfalso
            unfold has_active_loans_student at hcase
            rw [List.any_eq_true] at hcase
            obtain ⟨l, hl, hcond⟩ := hcase
            simp only [Bool.and_eq_true, beq_iff_eq] at hcond
            obtain ⟨⟨hlsch, hisNone⟩, hany⟩ := hcond
            rw [List.any_eq_true] at hany
            obtain ⟨Y, hY, hYc⟩ := hany
            simp only [Bool.and_eq_true, beq_iff_eq] at hYc
            obtain ⟨hYid, hYadm⟩ := hYc
            have hret : l.returned_at = none := by
              rwa [Option.isNone_iff_eq_none] at hisNone
            have hYsch : Y.school_id = l.school_id := htenant_s l hl hret Y hY hYid
            have hYX : Y = X := huniq_s Y hY X hX (by rw [hYsch, hlsch]) hYadm
            apply hno
            refine ⟨l, hl, ?_, hlsch, hret⟩
            rw [← hYX]
            exact hYid.symm
      unfold delete_student_checked
      rw [hhas]
      constructor
      · rfl
      · intro hmem
        have hmem' : X ∈ (delete_student st X.school_id X.admission_no now).students := hmem
        rw [delete_student_students] at hmem'
        have hkeep := (List.mem_filter.mp hmem').2
        simp [studentKeyMatch] at hkeep
  · intro B hB
    constructor
    · rintro ⟨l, hl, hlb, hlsch, hret⟩
      have hhas : has_active_loans_book st B.school_id B.barcode = true := by
        unfold has_active_loans_book
        rw [List.any_eq_true]
        refine ⟨l, hl, ?_⟩
        simp only [Bool.and_eq_true, beq_iff_eq]
        refine ⟨⟨hlsch, ?_⟩, ?_⟩
        · rw [Option.isNone_iff_eq_none]
          exact hret
        · rw [List.any_eq_true]
          refine ⟨B, hB, ?_⟩
          simp [hlb]
      unfold delete_book_checked
      rw [hhas]
      rfl
    · intro hno
      have hhas : has_active_loans_book st B.school_id B.barcode = false := by
        cases hcase : has_active_loans_book st B.school_id B.barcode with
        | false => rfl
        | true =>
            exfalso
            unfold has_active_loans_book at hcase
            rw [List.any_eq_true] at hcase
            obtain ⟨l, hl, hcond⟩ := hcase
            simp only [Bool.and_eq_true, beq_iff_eq] at hcond
            obtain ⟨⟨hlsch, hisNone⟩, hany⟩ := hcond
            rw [List.any_eq_true] at hany
            obtain ⟨Y, hY, hYc⟩ := hany
            simp only [Bool.and_eq_true, beq_iff_eq] at hYc
            obtain ⟨hYid, hYbc⟩ := hYc
            have hret : l.returned_at = none := by
              rwa [Option.isNone_iff_eq_none] at hisNone
            have hYsch : Y.school_id = l.school_id := htenant_b l hl hret Y hY hYid
            have hYB : Y = B := huniq_b Y hY B hB (by rw [hYsch, hlsch]) hYbc
            apply hno
            refine ⟨l, hl, ?_, hlsch, hret⟩
            rw [← hYB]
            exact hYid.symm
      unfold delete_book_checked
      rw [hhas]
      constructor
      · rfl
      · intro hmem
        have hmem' : B ∈ (delete_book st B.school_id B.barcode now).books := hmem
        rw [delete_book_books] at hmem'
        have hkeep := (List.mem_filter.mp hmem').2
        simp [bookKeyMatch] at hkeep

/-- Witness for C5: the theorem at the Oakview state in which Jane holds
one active loan on book BC001. -/
theorem deletion_guard_witness :
    (∀ X ∈ oakviewLoanState.students,
      (hasActiveLoanStudentRow oakviewLoanState X →
        delete_student_checked oakviewLoanState X.school_id X.admission_no ⟨4, 4⟩
          = (false, oakviewLoanState)) ∧
      (¬hasActiveLoanStudentRow oakviewLoanState X →
        (delete_student_checked oakviewLoanState X.school_id X.admission_no ⟨4, 4⟩).1 = true ∧
        X ∉ (delete_student_checked oakviewLoanState X.school_id
            X.admission_no ⟨4, 4⟩).2.students)) ∧
    (∀ B ∈ oakviewLoanState.books,
      (hasActiveLoanBookRow oakviewLoanState B →
        delete_book_checked oakviewLoanState B.school_id B.barcode ⟨4, 4⟩
          = (false, oakviewLoanState)) ∧
      (¬hasActiveLoanBookRow oakviewLoanState B →
        (delete_book_checked oakviewLoanState B.school_id B.barcode ⟨4, 4⟩).1 = true ∧
        B ∉ (delete_book_checked oakviewLoanState B.school_id B.barcode ⟨4, 4⟩).2.books)) :=
  deletion_guard oakviewLoanState ⟨4, 4⟩ (by decide) (by decide) (by decide) (by decide)
